import Mathlib

/-!
Verification development for the DrissionPage MCP server core:
shallow embedding of the session manager (`browser.py`), the content
pipeline (`tools/markdown.py`) and the structured extractor / scroll
controller (`tools/advanced.py`), with theorems about the behaviours
the design document describes.

Strings are modelled as `List Char` where character-level processing
matters (the blank-line collapse of `page_to_markdown`), and as `String`
elsewhere.  Browser-side effects (element resolution, scrolling,
measurement, HTML→Markdown conversion) are the collaborator interfaces
the code calls into; they enter the embedding as explicit function
parameters, exactly where the Python code calls the collaborator.
-/

set_option maxRecDepth 20000

/-! ### Character-level utilities -/

/-- Python `str.strip()` whitespace test for the characters that occur in
this code base's data. -/
def isSpaceChar (c : Char) : Bool :=
  c = ' ' || c = '\t' || c = '\n' || c = '\r'

/-- Drop leading and trailing whitespace characters. -/
def stripChars (l : List Char) : List Char :=
  ((l.dropWhile isSpaceChar).reverse.dropWhile isSpaceChar).reverse

/-- Embedding of Python `str.strip()` as used on cell texts in
`extract_table_data` (`cell.text.strip()`). -/
def pyStrip (s : String) : String :=
  ⟨stripChars s.data⟩

/-- `startsWithChars pat l` is true when `pat` is an initial segment of `l`. -/
def startsWithChars : List Char → List Char → Bool
  | [], _ => true
  | _ :: _, [] => false
  | p :: ps, c :: cs => p = c && startsWithChars ps cs

/-- `containsSub pat l`: `pat` occurs as a contiguous substring of `l`.
Embeds the CSS `[attr*="pat"]` attribute-substring test used by
`_clean_html`'s denylist selectors. -/
def containsSub (pat : List Char) : List Char → Bool
  | [] => startsWithChars pat []
  | c :: cs => startsWithChars pat (c :: cs) || containsSub pat cs

/-- Split a character list on whitespace into non-empty tokens; embeds the
HTML `class` attribute's token list used by CSS `.token` selectors. -/
def splitSpaces : List Char → List Char → List (List Char)
  | [], acc => if acc.isEmpty then [] else [acc.reverse]
  | c :: cs, acc =>
    if isSpaceChar c then
      if acc.isEmpty then splitSpaces cs [] else acc.reverse :: splitSpaces cs []
    else splitSpaces cs (c :: acc)

/-! ### Blank-line collapse (`markdown.py` line 241)

`markdown_content = re.sub(r'\n{3,}', '\n\n', markdown_content)`:
every maximal run of `k ≥ 3` newlines is replaced by exactly two
newlines; shorter runs are kept.  `collapseRunsAux` accumulates the
length of the current newline run and emits it (`emitRun`) when the run
ends, which is precisely the action of the regex substitution. -/

/-- What the substitution leaves of one maximal newline run of length `k`. -/
def emitRun (k : Nat) : List Char :=
  if 3 ≤ k then ['\n', '\n'] else List.replicate k '\n'

/-- Run accumulator for the regex substitution: `k` is the number of
newline characters of the run currently being read. -/
def collapseRunsAux : List Char → Nat → List Char
  | [], k => emitRun k
  | c :: cs, k =>
    if c = '\n' then collapseRunsAux cs (k + 1)
    else emitRun k ++ (c :: collapseRunsAux cs 0)

/-- Embedding of `re.sub(r'\n{3,}', '\n\n', s)`. -/
def collapse_blank_lines (l : List Char) : List Char :=
  collapseRunsAux l 0

/-- Streaming form of the same substitution: emit the first two newlines
of every run and drop the rest (`seen` counts the newlines of the current
run already processed). -/
def collapseEmit : List Char → Nat → List Char
  | [], _ => []
  | c :: cs, seen =>
    if c = '\n' then
      if 2 ≤ seen then collapseEmit cs (seen + 1)
      else '\n' :: collapseEmit cs (seen + 1)
    else c :: collapseEmit cs 0

/-- `tripleFree k l = true` iff `l`, read after `k` pending newlines,
never contains three consecutive newline characters. -/
def tripleFree : Nat → List Char → Bool
  | _, [] => true
  | k, c :: cs =>
    if c = '\n' then
      if 2 ≤ k then false else tripleFree (k + 1) cs
    else tripleFree 0 cs

theorem emitRun_eq (k : Nat) : emitRun k = List.replicate (min k 2) '\n' := by
  by_cases h : 3 ≤ k
  · have h2 : min k 2 = 2 := by omega
    simp [emitRun, h, h2]
  · have h2 : min k 2 = k := by omega
    simp [emitRun, h, h2]

theorem collapseRunsAux_eq_emit (l : List Char) :
    ∀ k, collapseRunsAux l k = List.replicate (min k 2) '\n' ++ collapseEmit l k := by
  induction l with
  | nil =>
    intro k
    simp [collapseRunsAux, collapseEmit, emitRun_eq]
  | cons c cs ih =>
    intro k
    by_cases hc : c = '\n'
    · subst hc
      by_cases hk : 2 ≤ k
      · have h1 : min k 2 = 2 := by omega
        have h2 : min (k + 1) 2 = 2 := by omega
        simp only [collapseRunsAux, collapseEmit, if_pos rfl, if_true, hk, if_pos hk,
          ih (k + 1), h1, h2]
      · have h1 : min k 2 = k := by omega
        have h2 : min (k + 1) 2 = k + 1 := by omega
        simp only [collapseRunsAux, collapseEmit, if_pos rfl, if_true, if_neg hk,
          ih (k + 1), h1, h2]
        rw [List.replicate_succ']
        simp
    · simp only [collapseRunsAux, collapseEmit, if_neg hc, ih 0, emitRun_eq]
      simp

theorem collapseEmit_sat (l : List Char) :
    ∀ a b, 2 ≤ a → 2 ≤ b → collapseEmit l a = collapseEmit l b := by
  induction l with
  | nil => intro a b _ _; rfl
  | cons c cs ih =>
    intro a b ha hb
    by_cases hc : c = '\n'
    · subst hc
      simp only [collapseEmit, if_pos rfl, if_true, if_pos ha, if_pos hb]
      exact ih (a + 1) (b + 1) (by omega) (by omega)
    · simp only [collapseEmit, if_neg hc]

theorem collapseEmit_idem (l : List Char) :
    ∀ n, collapseEmit (collapseEmit l n) n = collapseEmit l n := by
  induction l with
  | nil => intro n; rfl
  | cons c cs ih =>
    intro n
    by_cases hc : c = '\n'
    · subst hc
      by_cases hn : 2 ≤ n
      · simp only [collapseEmit, if_pos rfl, if_true, if_pos hn]
        rw [collapseEmit_sat (collapseEmit cs (n + 1)) n (n + 1) hn (by omega)]
        exact ih (n + 1)
      · conv_lhs =>
          rw [show collapseEmit ('\n' :: cs) n = '\n' :: collapseEmit cs (n + 1) by
            simp only [collapseEmit, if_pos rfl, if_true, if_neg hn]]
        simp only [collapseEmit, if_pos rfl, if_true, if_neg hn]
        rw [ih (n + 1)]
    · conv_lhs =>
        rw [show collapseEmit (c :: cs) n = c :: collapseEmit cs 0 by
          simp only [collapseEmit, if_neg hc]]
      simp only [collapseEmit, if_neg hc]
      rw [ih 0]

theorem tripleFree_collapseEmit (l : List Char) :
    ∀ n k, k ≤ n → tripleFree k (collapseEmit l n) = true := by
  induction l with
  | nil => intro n k _; rfl
  | cons c cs ih =>
    intro n k hkn
    by_cases hc : c = '\n'
    · subst hc
      by_cases hn : 2 ≤ n
      · simp only [collapseEmit, if_pos rfl, if_true, if_pos hn]
        exact ih (n + 1) k (by omega)
      · have hk2 : ¬ 2 ≤ k := by omega
        simp only [collapseEmit, if_pos rfl, if_true, if_neg hn, tripleFree, if_neg hk2]
        exact ih (n + 1) (k + 1) (by omega)
    · simp only [collapseEmit, if_neg hc, tripleFree]
      exact ih 0 0 (le_refl 0)

theorem collapse_eq_collapseEmit (l : List Char) :
    collapse_blank_lines l = collapseEmit l 0 := by
  rw [collapse_blank_lines, collapseRunsAux_eq_emit l 0]
  rfl

/-- Collapsed output never contains three consecutive newlines. -/
theorem collapse_tripleFree (l : List Char) :
    tripleFree 0 (collapse_blank_lines l) = true := by
  rw [collapse_eq_collapseEmit]
  exact tripleFree_collapseEmit l 0 0 (le_refl 0)

/-- C7: The blank-line collapse applied to converted Markdown (replacing
every run of 3 or more consecutive newlines with exactly two newlines) is
idempotent: for every text `x`, `collapse (collapse x) = collapse x`. -/
theorem c7_collapse_idempotent (x : List Char) :
    collapse_blank_lines (collapse_blank_lines x) = collapse_blank_lines x := by
  rw [collapse_eq_collapseEmit x, collapse_eq_collapseEmit (collapseEmit x 0),
    collapseEmit_idem]

/-! ### `page_to_markdown` / `get_page_content` content pipeline
(`tools/markdown.py`)

The browser tab and the two optional converter libraries are external
collaborators: the tab's `title`/`url`/`html`/`text` and the converter
functions enter as parameters.  `use_markdownify` / `use_html2text`
embed the module-level `USE_MARKDOWNIFY` / `USE_HTML2TEXT` flags. -/

/-- Result of the content operations: the produced content, or a
`success:false` error payload. -/
inductive MdResult where
  | ok (content : List Char)
  | err (msg : String)
deriving DecidableEq

/-- The f-string metadata block of `page_to_markdown` (lines 245-252):
`"# {title}\n\n**URL**: {url}  \n**转换时间**: {stem}\n\n---\n\n"`. -/
def metadataBlock (title url stem : List Char) : List Char :=
  "# ".toList ++ title ++ "\n\n**URL**: ".toList ++ url ++
    "  \n**转换时间**: ".toList ++ stem ++ "\n\n---\n\n".toList

/-- Lines 240-253 of `markdown.py`: collapse blank lines in the converted
Markdown, then (if `add_metadata`) prepend the metadata block. -/
def assembleMarkdown (title url stem : List Char) (add_metadata : Bool)
    (md : List Char) : List Char :=
  let collapsed := collapse_blank_lines md
  if add_metadata then metadataBlock title url stem ++ collapsed else collapsed

/-- Embedding of `page_to_markdown` (converter selection and content
assembly; sanitize steps happen upstream of `html` and file IO is outside
the embedding).  Mirrors lines 202-253. -/
def page_to_markdown (use_markdownify use_html2text : Bool)
    (convert_markdownify convert_html2text : List Char → List Char)
    (title url stem html : List Char) (add_metadata : Bool)
    (converter : String) : MdResult :=
  if converter = "auto" && !use_markdownify && !use_html2text then
    .err "未安装 Markdown 转换库，请安装 markdownify 或 html2text"
  else
    let c := if converter = "auto" then
        (if use_markdownify then "markdownify" else "html2text")
      else converter
    if c = "markdownify" then
      if !use_markdownify then .err "markdownify 未安装"
      else .ok (assembleMarkdown title url stem add_metadata (convert_markdownify html))
    else if c = "html2text" then
      if !use_html2text then .err "html2text 未安装"
      else .ok (assembleMarkdown title url stem add_metadata (convert_html2text html))
    else .err ("不支持的转换器: " ++ c)

/-- Content of an `MdResult`, empty on error. -/
def mdContent : MdResult → List Char
  | .ok c => c
  | .err _ => []

/-- Result record of `get_page_content`. -/
structure ContentResult where
  success : Bool
  format : String
  content : List Char
  error : Option String
deriving DecidableEq

/-- Embedding of `get_page_content` (lines 290-362).  `page_text` and
`page_html` are the tab's `text`/`html`; `extract_main_f` and
`clean_html_f` stand for the string-level `_extract_main_content` /
`_clean_html` passes applied when the corresponding flags are set. -/
def get_page_content (use_markdownify use_html2text : Bool)
    (convert_markdownify convert_html2text : List Char → List Char)
    (extract_main_f clean_html_f : List Char → List Char)
    (page_text page_html : List Char)
    (format : String) (extract_main remove_ads : Bool) : ContentResult :=
  if format = "text" then
    ⟨true, "text", page_text, none⟩
  else if format = "html" then
    let h := if extract_main then extract_main_f page_html else page_html
    let h := if remove_ads then clean_html_f h else h
    ⟨true, "html", h, none⟩
  else if format = "markdown" then
    let h := if extract_main then extract_main_f page_html else page_html
    let h := if remove_ads then clean_html_f h else h
    if use_markdownify then ⟨true, "markdown", convert_markdownify h, none⟩
    else if use_html2text then ⟨true, "markdown", convert_html2text h, none⟩
    else ⟨true, "text", page_text, none⟩
  else
    ⟨false, format, [], some ("不支持的格式: " ++ format)⟩

/-- C2 (counterexample): the claim says the metadata block is prepended
before the blank-line collapse, so the finished content is normalized as a
whole.  At a concrete page whose converted body starts with a newline, the
code's output contains a run of three newlines at the metadata/body
boundary and differs from the prepend-then-collapse result — so the
prepend cannot have happened before the collapse. -/
theorem c2_counterexample :
    tripleFree 0 (mdContent (page_to_markdown true false (fun l => l) (fun l => l)
        "T".toList "u".toList "f".toList "\nX".toList true "auto")) = false
    ∧ mdContent (page_to_markdown true false (fun l => l) (fun l => l)
        "T".toList "u".toList "f".toList "\nX".toList true "auto")
      ≠ collapse_blank_lines
          (metadataBlock "T".toList "u".toList "f".toList ++ "\nX".toList) := by
  constructor
  · decide
  · decide

/-- C2 (amended): with `add_metadata` true and markdownify available, the
metadata header block is prepended exactly once, but only after the
blank-line collapse has run: the result is the metadata block followed by
the collapsed body, the body part is free of 3-newline runs, and the
metadata block itself is outside the collapse pass. -/
theorem c2_metadata_prepended_after_collapse
    (convert_markdownify convert_html2text : List Char → List Char)
    (title url stem html : List Char) :
    page_to_markdown true false convert_markdownify convert_html2text
        title url stem html true "markdownify"
      = .ok (metadataBlock title url stem
          ++ collapse_blank_lines (convert_markdownify html))
    ∧ tripleFree 0 (collapse_blank_lines (convert_markdownify html)) = true := by
  constructor
  · rfl
  · exact collapse_tripleFree (convert_markdownify html)

/-- C10: when neither Markdown conversion library is available,
`get_page_content` with format `"markdown"` silently degrades: it returns
`success:true` with the page's plain text and reports format `"text"`,
while `page_to_markdown` with converter `"auto"` fails with a
`success:false` error in the same situation. -/
theorem c10_markdown_degrades_to_text
    (convert_markdownify convert_html2text : List Char → List Char)
    (extract_main_f clean_html_f : List Char → List Char)
    (page_text page_html : List Char) (extract_main remove_ads : Bool)
    (title url stem : List Char) (add_metadata : Bool) :
    get_page_content false false convert_markdownify convert_html2text
        extract_main_f clean_html_f page_text page_html
        "markdown" extract_main remove_ads
      = ⟨true, "text", page_text, none⟩
    ∧ page_to_markdown false false convert_markdownify convert_html2text
        title url stem page_html add_metadata "auto"
      = .err "未安装 Markdown 转换库，请安装 markdownify 或 html2text" := by
  constructor
  · rfl
  · rfl

/-! ### HTML element trees and the CSS selectors this code uses

`BeautifulSoup` is the external HTML parser; the embedding works on the
parsed tree directly.  An element carries the attributes the denylist and
main-content selectors inspect: tag name, `id`, raw `class` attribute and
`role`.  `select_one` returns the first match in document order
(pre-order), `select` returns all matches. -/

inductive Elem where
  | mk (tag idAttr classAttr roleAttr : String) (children : List Elem)

def Elem.tag : Elem → String
  | .mk t _ _ _ _ => t

def Elem.idAttr : Elem → String
  | .mk _ i _ _ _ => i

def Elem.classAttr : Elem → String
  | .mk _ _ c _ _ => c

def Elem.children : Elem → List Elem
  | .mk _ _ _ _ ch => ch

/-- The selector forms occurring in `_clean_html` and
`_extract_main_content`. -/
inductive Sel where
  | tagSel (t : String)
  | classTok (c : String)
  | idSel (i : String)
  | roleIs (v : String)
  | classContains (s : String)
  | idContains (s : String)
deriving DecidableEq

/-- Whether one element matches one selector (CSS semantics for the
forms above: `.c` is token membership in the `class` attribute, `#i` is
exact id, `[attr*=s]` is attribute-substring). -/
def matchesSel (s : Sel) (e : Elem) : Bool :=
  match s, e with
  | .tagSel t, .mk tag _ _ _ _ => tag = t
  | .classTok c, .mk _ _ cls _ _ => (splitSpaces cls.data []).contains c.data
  | .idSel i, .mk _ idv _ _ _ => idv = i
  | .roleIs v, .mk _ _ _ role _ => role = v
  | .classContains s, .mk _ _ cls _ _ => containsSub s.data cls.data
  | .idContains s, .mk _ idv _ _ _ => containsSub s.data idv.data

mutual

/-- First match of a selector within one element's subtree, document
order (the element itself, then its children left to right). -/
def selElem (s : Sel) : Elem → Option Elem
  | .mk t i c r ch =>
    if matchesSel s (.mk t i c r ch) then some (.mk t i c r ch)
    else selForest s ch

/-- First match of a selector within a forest, document order; embeds
`soup.select_one(selector)` over the parsed document. -/
def selForest (s : Sel) : List Elem → Option Elem
  | [] => none
  | e :: es =>
    match selElem s e with
    | some r => some r
    | none => selForest s es

end

/-! ### `_extract_main_content` (`markdown.py` lines 110-140) -/

/-- The fixed priority list of main-content selectors (line 122-127),
in source order. -/
def main_selectors : List Sel :=
  [.tagSel "main", .tagSel "article", .roleIs "main",
   .classTok "main-content", .idSel "main-content",
   .classTok "content", .idSel "content",
   .classTok "post-content", .classTok "article-content"]

/-- Which subtree `_extract_main_content` returns: a selector match, the
`<body>` fallback, or the original document. -/
inductive MainContent where
  | selected (e : Elem)
  | bodyTag (e : Elem)
  | original

/-- First selector of the list with a match, that match. -/
def firstSel : List Sel → List Elem → Option Elem
  | [], _ => none
  | s :: ss, doc =>
    match selForest s doc with
    | some e => some e
    | none => firstSel ss doc

/-- Embedding of `_extract_main_content`: try the priority selectors in
order, fall back to the first `<body>` element, else keep the whole
document.  Total — no error case exists. -/
def extract_main_content (doc : List Elem) : MainContent :=
  match firstSel main_selectors doc with
  | some e => .selected e
  | none =>
    match selForest (.tagSel "body") doc with
    | some b => .bodyTag b
    | none => .original

/-- C6: main-content extraction returns the subtree of the first selector
matching in the fixed priority order (`main` first, so a document with
both `<main>` and `<article>` yields the `<main>` subtree); when no
selector matches it falls back to `<body>`, then to the full document,
and it is total — never an error. -/
theorem c6_extract_main_priority (doc : List Elem) :
    (∀ e, selForest (.tagSel "main") doc = some e →
      extract_main_content doc = .selected e)
    ∧ (∀ e, selForest (.tagSel "main") doc = none →
        selForest (.tagSel "article") doc = some e →
        extract_main_content doc = .selected e)
    ∧ ((∀ s, s ∈ main_selectors → selForest s doc = none) →
        (∀ b, selForest (.tagSel "body") doc = some b →
          extract_main_content doc = .bodyTag b)
        ∧ (selForest (.tagSel "body") doc = none →
            extract_main_content doc = .original)) := by
  refine ⟨?_, ?_, ?_⟩
  · intro e he
    simp only [extract_main_content, main_selectors, firstSel, he]
  · intro e hmain harticle
    simp only [extract_main_content, main_selectors, firstSel, hmain, harticle]
  · intro hall
    have h0 := hall (.tagSel "main") (by simp [main_selectors])
    have h1 := hall (.tagSel "article") (by simp [main_selectors])
    have h2 := hall (.roleIs "main") (by simp [main_selectors])
    have h3 := hall (.classTok "main-content") (by simp [main_selectors])
    have h4 := hall (.idSel "main-content") (by simp [main_selectors])
    have h5 := hall (.classTok "content") (by simp [main_selectors])
    have h6 := hall (.idSel "content") (by simp [main_selectors])
    have h7 := hall (.classTok "post-content") (by simp [main_selectors])
    have h8 := hall (.classTok "article-content") (by simp [main_selectors])
    constructor
    · intro b hb
      simp only [extract_main_content, main_selectors, firstSel,
        h0, h1, h2, h3, h4, h5, h6, h7, h8, hb]
    · intro hb
      simp only [extract_main_content, main_selectors, firstSel,
        h0, h1, h2, h3, h4, h5, h6, h7, h8, hb]

/-- A page containing both an `<article>` and a `<main>` element. -/
def mainArticleDoc : List Elem :=
  [.mk "html" "" "" ""
    [.mk "body" "" "" ""
      [.mk "article" "" "" "" [],
       .mk "main" "" "" "" [.mk "p" "" "" "" []]]]]

/-- C6 witness: on a document containing both `<main>` and `<article>`,
extraction returns the `<main>` subtree. -/
theorem c6_extract_main_priority_witness :
    extract_main_content mainArticleDoc
      = .selected (.mk "main" "" "" "" [.mk "p" "" "" "" []]) :=
  (c6_extract_main_priority mainArticleDoc).1
    (.mk "main" "" "" "" [.mk "p" "" "" "" []]) rfl

/-! ### `_clean_html` (`markdown.py` lines 36-60) -/

/-- The fixed denylist of `_clean_html` (lines 50-56), in source order:
tag selectors, `[class*=...]` / `[id*=...]` substring selectors, and
class-token selectors. -/
def denylist_selectors : List Sel :=
  [.tagSel "script", .tagSel "style", .tagSel "iframe", .tagSel "noscript",
   .classContains "ad-", .classContains "advertisement",
   .idContains "ad-", .idContains "advertisement",
   .classTok "sidebar", .classTok "footer", .classTok "header-ad",
   .classContains "social-share", .classContains "cookie"]

/-- An element is removed by `_clean_html` iff some denylist selector
matches it. -/
def denylisted (e : Elem) : Bool :=
  denylist_selectors.any (fun s => matchesSel s e)

mutual

/-- `element.decompose()` applied throughout one subtree: `none` when the
root itself matches the denylist (the whole subtree disappears),
otherwise the element with its descendants cleaned. -/
def cleanElem : Elem → Option Elem
  | .mk t i c r ch =>
    if denylisted (.mk t i c r ch) then none
    else some (.mk t i c r (cleanForest ch))

/-- Embedding of `_clean_html` with `remove_ads` true on a parsed
forest. -/
def cleanForest : List Elem → List Elem
  | [] => []
  | e :: es =>
    match cleanElem e with
    | some e2 => e2 :: cleanForest es
    | none => cleanForest es

end

mutual

/-- All elements of a subtree (the root and its descendants). -/
def elemsOf : Elem → List Elem
  | .mk t i c r ch => .mk t i c r ch :: elemsForest ch

/-- All elements of a forest. -/
def elemsForest : List Elem → List Elem
  | [] => []
  | e :: es => elemsOf e ++ elemsForest es

end

/-- The denylist inspects only tag, class and id — never the children. -/
theorem denylisted_ignores_children (t i c r : String) (ch ch2 : List Elem) :
    denylisted (.mk t i c r ch) = denylisted (.mk t i c r ch2) := rfl

theorem cleanForest_no_denylisted :
    ∀ (f : List Elem) (x : Elem), x ∈ elemsForest (cleanForest f) →
      denylisted x = false := by
  have main : ∀ (n : Nat) (f : List Elem), sizeOf f ≤ n →
      ∀ x ∈ elemsForest (cleanForest f), denylisted x = false := by
    intro n
    induction n with
    | zero =>
      intro f hf
      exfalso
      cases f with
      | nil => simp at hf
      | cons e es => simp only [List.cons.sizeOf_spec] at hf; omega
    | succ n ih =>
      intro f hf x hx
      match f with
      | [] => simp [cleanForest, elemsForest] at hx
      | (Elem.mk t i c r ch) :: es =>
        simp only [List.cons.sizeOf_spec, Elem.mk.sizeOf_spec] at hf
        have hch : sizeOf ch ≤ n := by omega
        have hes : sizeOf es ≤ n := by omega
        by_cases hd : denylisted (.mk t i c r ch)
        · rw [cleanForest, cleanElem, if_pos hd] at hx
          exact ih es hes x hx
        · rw [cleanForest, cleanElem, if_neg hd] at hx
          simp only [elemsForest, elemsOf, List.mem_append, List.mem_cons] at hx
          rcases hx with (rfl | hx) | hx
          · rw [denylisted_ignores_children t i c r (cleanForest ch) ch]
            exact eq_false_of_ne_true hd
          · exact ih ch hch x hx
          · exact ih es hes x hx
  intro f x hx
  exact main (sizeOf f) f (le_refl _) x hx

/-- An element whose id — but not class — contains "cookie". -/
def cookieDiv : Elem := .mk "div" "cookie-consent" "" "" []

/-- C8 (counterexample): the claim says every element whose class **or
id** contains "cookie" (or "social-share") is deleted; the code's
denylist checks "cookie" and "social-share" only against the class
attribute, so a `div` with id "cookie-consent" survives `_clean_html`
untouched. -/
theorem c8_counterexample :
    containsSub "cookie".data "cookie-consent".data = true
    ∧ cleanForest [cookieDiv] = [cookieDiv] := by
  exact ⟨rfl, rfl⟩

/-- C8 (amended): `_clean_html` with `remove_ads` true deletes, node and
descendants, every element matching the denylist — script/style/iframe/
noscript tags, class containing "ad-", "advertisement", "social-share"
or "cookie", id containing "ad-" or "advertisement", class token
"sidebar", "footer" or "header-ad" — and deletion is structural and
total: no element of the cleaned output matches the denylist. -/
theorem c8_clean_html_removes_denylisted (f : List Elem) (x : Elem)
    (hx : x ∈ elemsForest (cleanForest f)) : denylisted x = false :=
  cleanForest_no_denylisted f x hx

/-- A small page: a denylisted `script` next to an innocuous `div`. -/
def scriptAndDiv : List Elem :=
  [.mk "script" "" "" "" [], .mk "div" "" "" "" []]

/-- C8 witness: cleaning `scriptAndDiv` keeps exactly the `div`, and the
theorem certifies the surviving element is not denylisted. -/
theorem c8_clean_html_removes_denylisted_witness :
    denylisted (.mk "div" "" "" "" []) = false := by
  apply c8_clean_html_removes_denylisted scriptAndDiv
  rw [show elemsForest (cleanForest scriptAndDiv)
      = [Elem.mk "div" "" "" "" []] from rfl]
  exact List.mem_singleton.mpr rfl

/-! ### `extract_table_data` (`advanced.py` lines 63-117)

The DrissionPage queries `table.ele('tag:thead')`, `thead.eles('tag:th')`,
`table.ele('tag:tr')`, `tbody.eles('tag:tr')`, `table.eles('tag:tr')` and
`tr.eles('tag:td')` are the collaborator interface; the embedding keeps a
table as its rows grouped by section, with each row's `th` and `td` cell
texts.  Document order of `table.eles('tag:tr')` is thead rows, then
tbody rows, then rows directly under the table. -/

/-- One `<tr>`: the texts of its `th` cells and of its `td` cells. -/
structure TableRow where
  ths : List String
  tds : List String
deriving DecidableEq

/-- One `<table>`: optional `<thead>` and `<tbody>` sections plus the
rows directly under the table element. -/
structure HtmlTable where
  theadRows : Option (List TableRow)
  tbodyRows : Option (List TableRow)
  directRows : List TableRow
deriving DecidableEq

/-- `table.eles('tag:tr')`: every `<tr>` of the table in document
order. -/
def allRows (t : HtmlTable) : List TableRow :=
  (t.theadRows.getD []) ++ (t.tbodyRows.getD []) ++ t.directRows

/-- Lines 63-79: headers from the `thead`'s `th` cells, falling back to
its `td` cells; if that yields nothing (no `thead`, or an empty one),
from the first row's `th` cells, falling back to its `td` cells. -/
def extractHeaders (t : HtmlTable) : List String :=
  let fromThead :=
    match t.theadRows with
    | some rs =>
      let cells := (rs.map (fun r => r.ths)).flatten
      let cells := if cells.isEmpty then (rs.map (fun r => r.tds)).flatten else cells
      cells.map pyStrip
    | none => []
  if fromThead.isEmpty then
    match allRows t with
    | [] => []
    | r :: _ =>
      let cells := if r.ths.isEmpty then r.tds else r.ths
      cells.map pyStrip
  else fromThead

/-- Lines 92-97: a row's cells are its `td` texts, falling back to `th`
texts. -/
def rowCells (r : TableRow) : List String :=
  if r.tds.isEmpty then r.ths else r.tds

/-- One row's extracted data (stripped cell texts), `none` when the row
has no cells at all (line 98: empty rows are dropped). -/
def rowData (r : TableRow) : Option (List String) :=
  let d := (rowCells r).map pyStrip
  if d.isEmpty then none else some d

/-- Lines 81-99: data rows come from `tbody` when present; otherwise from
all rows, skipping the first when a header was extracted and
`include_header` is set.  Rows without cells are dropped. -/
def extractRows (t : HtmlTable) (include_header : Bool) : List (List String) :=
  let trList :=
    match t.tbodyRows with
    | some rs => rs
    | none =>
      if !(extractHeaders t).isEmpty && include_header && !(allRows t).isEmpty
      then (allRows t).tail else allRows t
  trList.filterMap rowData

/-- Lines 102-108: with headers present each row becomes the key→value
pairs `dict(zip(headers, row))`, in header order, truncated to the
shorter of the two. -/
def extractRecords (t : HtmlTable) (include_header : Bool) :
    List (List (String × String)) :=
  (extractRows t include_header).map (fun r => (extractHeaders t).zip r)

/-- The table `<table><tr><th>A</th><th>B</th></tr><tr><td>1</td><td>2</td></tr></table>`:
no `thead`, no `tbody`, two direct rows. -/
def exTable : HtmlTable :=
  ⟨none, none, [⟨["A", "B"], []⟩, ⟨[], ["1", "2"]⟩]⟩

/-- C5: headers come from the `thead`'s `th` cells (falling back to `td`,
then to the first row) and body rows from `tbody` when present, else from
the remaining rows with the first skipped when it served as header; on
`<table><tr><th>A</th><th>B</th></tr><tr><td>1</td><td>2</td></tr></table>`
the headers are `["A","B"]` and the records `[{"A":"1","B":"2"}]`. -/
theorem c5_table_extraction (t : HtmlTable) (rs : List TableRow) :
    (t.theadRows = some rs → ¬ ((rs.map (fun r => r.ths)).flatten).isEmpty →
      extractHeaders t = ((rs.map (fun r => r.ths)).flatten).map pyStrip)
    ∧ (t.tbodyRows = some rs → extractRows t true = rs.filterMap rowData)
    ∧ (t.tbodyRows = none → ¬ (extractHeaders t).isEmpty →
        extractRows t true = (allRows t).tail.filterMap rowData)
    ∧ extractHeaders exTable = ["A", "B"]
    ∧ extractRecords exTable true = [[("A", "1"), ("B", "2")]] := by
  refine ⟨?_, ?_, ?_, ?_, ?_⟩
  · intro hth hne
    have hjoin : ((rs.map (fun r => r.ths)).flatten).isEmpty = false := by
      cases h : ((rs.map (fun r => r.ths)).flatten).isEmpty
      · rfl
      · exact absurd h hne
    have hmapne : (((rs.map (fun r => r.ths)).flatten).map pyStrip).isEmpty = false := by
      cases hl : (rs.map (fun r => r.ths)).flatten with
      | nil => rw [hl] at hjoin; simp at hjoin
      | cons a l => simp [hl]
    simp only [extractHeaders, hth, hjoin, Bool.false_eq_true, if_false, hmapne]
  · intro htb
    simp [extractRows, htb]
  · intro htb hne
    have h1 : (extractHeaders t).isEmpty = false := by
      cases h : (extractHeaders t).isEmpty
      · rfl
      · exact absurd h hne
    by_cases hall : (allRows t).isEmpty
    · have hnil : allRows t = [] := by simpa [List.isEmpty_iff] using hall
      simp [extractRows, htb, h1, hnil]
    · have h2 : (allRows t).isEmpty = false := by
        cases h : (allRows t).isEmpty
        · rfl
        · exact absurd h hall
      simp [extractRows, htb, h1, h2]
  · rfl
  · rfl

/-- C5 witness: the general clauses applied to the concrete table of the
claim — `exTable` has no `tbody`, a non-empty header, and its rows after
skipping the header row are exactly `[["1","2"]]`. -/
theorem c5_table_extraction_witness :
    extractRows exTable true = (allRows exTable).tail.filterMap rowData
    ∧ extractHeaders exTable = ["A", "B"]
    ∧ extractRecords exTable true = [[("A", "1"), ("B", "2")]] :=
  ⟨(c5_table_extraction exTable []).2.2.1 rfl (by decide),
   (c5_table_extraction exTable []).2.2.2.1,
   (c5_table_extraction exTable []).2.2.2.2⟩

/-! ### `fill_form` (`advanced.py` lines 263-378)

`tab.ele(selector)` and the per-element write (clear/input, checkbox
toggle, select) are collaborator calls; for one selector their combined
outcome is: element found and written, element not found, or an
exception while writing.  `resolve` embeds that interface. -/

/-- Outcome of resolving one selector and writing its value. -/
inductive FieldOutcome where
  | filled
  | notFound
  | fillError (msg : String)
deriving DecidableEq

/-- Result record of `fill_form`: `success`, the selectors filled in
order, whether a submit happened, and the collected error list (`none`
when empty, line 369: `errors if errors else None`). -/
structure FormResult where
  success : Bool
  filled_fields : List String
  submitted : Bool
  errors : Option (List String)
deriving DecidableEq

/-- One iteration of the field loop (lines 306-349): a found-and-written
selector is appended to `filled_fields`; a missing element appends
`"未找到元素: {selector}"`; an exception appends `"{selector}: {msg}"`.
The loop always continues. -/
def fieldStep (resolve : String → FieldOutcome)
    (acc : List String × List String) (field : String × String) :
    List String × List String :=
  match resolve field.1 with
  | .filled => (acc.1 ++ [field.1], acc.2)
  | .notFound => (acc.1, acc.2 ++ ["未找到元素: " ++ field.1])
  | .fillError m => (acc.1, acc.2 ++ [field.1 ++ ": " ++ m])

/-- Embedding of `fill_form`: process every field, then the optional
submit selector (lines 352-363), and report `success := errors = []`
(line 366). -/
def fill_form (resolve : String → FieldOutcome)
    (fields : List (String × String)) (submit_selector : Option String) :
    FormResult :=
  let acc := fields.foldl (fieldStep resolve) ([], [])
  let filled := acc.1
  let state :=
    match submit_selector with
    | none => (acc.2, false)
    | some s =>
      match resolve s with
      | .filled => (acc.2, true)
      | .notFound => (acc.2 ++ ["未找到提交按钮: " ++ s], false)
      | .fillError m => (acc.2 ++ ["提交表单失败: " ++ m], false)
  ⟨state.1.isEmpty, filled, state.2,
    if state.1.isEmpty then none else some state.1⟩

/-- Every field contributes to exactly one of the two accumulators. -/
theorem fieldStep_counts (resolve : String → FieldOutcome)
    (fields : List (String × String)) :
    ∀ acc : List String × List String,
      (fields.foldl (fieldStep resolve) acc).1.length
        + (fields.foldl (fieldStep resolve) acc).2.length
        = acc.1.length + acc.2.length + fields.length := by
  induction fields with
  | nil => intro acc; simp
  | cons f fs ih =>
    intro acc
    rw [List.foldl_cons]
    rw [ih (fieldStep resolve acc f)]
    cases h : resolve f.1 <;> simp [fieldStep, h] <;> omega

/-- C9: `fill_form` processes every field even when some fail — with one
selector that resolves and one that does not, the result has
`success:false`, `errors` exactly the missing selector's error, and
`filled_fields` exactly the resolved selector; in general every field
lands in `filled_fields` or contributes an error, so a per-field failure
never stops processing of the remaining fields. -/
theorem c9_fill_form_best_effort (resolve : String → FieldOutcome)
    (s1 v1 s2 v2 : String) (fields : List (String × String))
    (h1 : resolve s1 = .filled) (h2 : resolve s2 = .notFound) :
    fill_form resolve [(s1, v1), (s2, v2)] none
      = ⟨false, [s1], false, some ["未找到元素: " ++ s2]⟩
    ∧ (fill_form resolve fields none).filled_fields.length
        + ((fill_form resolve fields none).errors.getD []).length
        = fields.length := by
  constructor
  · simp [fill_form, fieldStep, h1, h2]
  · have hc := fieldStep_counts resolve fields ([], [])
    simp only [fill_form]
    cases he : (fields.foldl (fieldStep resolve) ([], [])).2 with
    | nil => simp only [he, List.isEmpty_nil]; simp; rw [he] at hc; simpa using hc
    | cons a l =>
      simp only [he, List.isEmpty_cons]
      simp only [if_neg (by simp : ¬ (false = true)), Option.getD_some]
      rw [he] at hc
      simpa using hc

/-- A concrete resolver: `#user` exists, everything else is missing. -/
def resolveEx : String → FieldOutcome :=
  fun s => if s = "#user" then .filled else .notFound

/-- C9 witness: filling `#user` and `#missing` yields `success:false`,
`filled_fields = ["#user"]` and exactly the missing selector's error,
and both fields were processed. -/
theorem c9_fill_form_best_effort_witness :
    fill_form resolveEx [("#user", "u"), ("#missing", "x")] none
      = ⟨false, ["#user"], false, some ["未找到元素: #missing"]⟩
    ∧ (fill_form resolveEx [("#user", "u"), ("#missing", "x")] none).filled_fields.length
        + ((fill_form resolveEx [("#user", "u"), ("#missing", "x")] none).errors.getD []).length
        = 2 :=
  c9_fill_form_best_effort resolveEx "#user" "u" "#missing" "x"
    [("#user", "u"), ("#missing", "x")] rfl rfl

/-! ### `handle_infinite_scroll` (`advanced.py` lines 381-451)

The measurement taken at iteration `i` (element count for
`check_selector`, page scroll height otherwise) is the collaborator
interface, embedded as `measure : Nat → Nat`.  The loop body (lines
416-443): scroll, increment `scroll_count`, measure, break if the
measurement equals the previous one, else store it. -/

/-- The `for i in range(max_scrolls)` loop: `count` is `scroll_count`,
`last` is `last_count`/`last_height` (seeded 0 at lines 413-414).
Returns the final `(scroll_count, last measurement state)` — on a break
the stored value is not updated first (the `break` precedes the
assignment). -/
def scrollLoop (measure : Nat → Nat) : List Nat → Nat → Nat → Nat × Nat
  | [], count, last => (count, last)
  | i :: rest, count, last =>
    let count2 := count + 1
    let cur := measure i
    if cur = last then (count2, last)
    else scrollLoop measure rest count2 cur

/-- Embedding of `handle_infinite_scroll`'s loop with a given
`max_scrolls`: iterate over `range(max_scrolls)` starting from
`scroll_count = 0` and a measurement state seeded at 0. -/
def handle_infinite_scroll (measure : Nat → Nat) (max_scrolls : Nat) :
    Nat × Nat :=
  scrollLoop measure (List.range max_scrolls) 0 0

/-- The previous measurement the loop compares against at iteration `j`:
the seed 0 for the first iteration, else the measurement of the previous
iteration. -/
def prevMeasure (measure : Nat → Nat) : Nat → Nat
  | 0 => 0
  | k + 1 => measure k

theorem scrollLoop_count_le (measure : Nat → Nat) :
    ∀ (l : List Nat) (count last : Nat),
      (scrollLoop measure l count last).1 ≤ count + l.length := by
  intro l
  induction l with
  | nil => intro count last; simp [scrollLoop]
  | cons i rest ih =>
    intro count last
    rw [scrollLoop]
    by_cases h : measure i = last
    · simp only [if_pos h, List.length_cons]
      omega
    · simp only [if_neg h, List.length_cons]
      have := ih (count + 1) (measure i)
      omega

theorem scrollLoop_stop (measure : Nat → Nat) :
    ∀ (len start count last j : Nat), start ≤ j → j < start + len →
      measure j = (if j = start then last else measure (j - 1)) →
      (∀ k, start ≤ k → k < j →
        measure k ≠ (if k = start then last else measure (k - 1))) →
      scrollLoop measure (List.range' start len) count last
        = (count + (j - start) + 1, if j = start then last else measure (j - 1)) := by
  intro len
  induction len with
  | zero => intro start count last j h1 h2; omega
  | succ len ih =>
    intro start count last j h1 h2 hj hk
    rw [List.range'_succ, scrollLoop]
    by_cases hjs : j = start
    · subst hjs
      rw [if_pos rfl] at hj
      simp only [if_pos rfl, if_pos hj]
      simp [hj]
    · have hlt : start < j := by omega
      have hne : measure start ≠ last := by
        have := hk start (le_refl start) hlt
        rw [if_pos rfl] at this
        exact this
      rw [if_neg hne]
      have hj2 : measure j = (if j = start + 1 then measure start else measure (j - 1)) := by
        rw [if_neg hjs] at hj
        by_cases hj1 : j = start + 1
        · rw [if_pos hj1, hj]
          rw [hj1]
          simp
        · rw [if_neg hj1, hj]
      have hk2 : ∀ k, start + 1 ≤ k → k < j →
          measure k ≠ (if k = start + 1 then measure start else measure (k - 1)) := by
        intro k hk1 hk2c
        have hks : k ≠ start := by omega
        have := hk k (by omega) hk2c
        rw [if_neg hks] at this
        by_cases hk3 : k = start + 1
        · subst hk3
          rw [if_pos rfl]
          simpa using this
        · rw [if_neg hk3]
          exact this
      have := ih (start + 1) (count + 1) (measure start) j (by omega) (by omega) hj2 hk2
      rw [this]
      have e1 : count + 1 + (j - (start + 1)) + 1 = count + (j - start) + 1 := by omega
      rw [e1]
      by_cases hj1 : j = start + 1
      · rw [if_pos hj1, if_neg hjs, hj1]
        simp
      · rw [if_neg hj1, if_neg hjs]

/-- The comparison value of `scrollLoop_stop` at start 0 and seed 0 is
`prevMeasure`. -/
theorem prevMeasure_eq (measure : Nat → Nat) (j : Nat) :
    prevMeasure measure j = (if j = 0 then 0 else measure (j - 1)) := by
  cases j with
  | zero => rfl
  | succ k => simp [prevMeasure]

theorem scrollLoop_exhaust (measure : Nat → Nat) :
    ∀ (len start count last : Nat),
      (∀ j, start ≤ j → j < start + len →
        measure j ≠ (if j = start then last else measure (j - 1))) →
      (scrollLoop measure (List.range' start len) count last).1 = count + len := by
  intro len
  induction len with
  | zero => intro start count last _; simp [scrollLoop]
  | succ len ih =>
    intro start count last hall
    rw [List.range'_succ, scrollLoop]
    have hne : measure start ≠ last := by
      have := hall start (le_refl start) (by omega)
      rw [if_pos rfl] at this
      exact this
    rw [if_neg hne]
    have hall2 : ∀ j, start + 1 ≤ j → j < start + 1 + len →
        measure j ≠ (if j = start + 1 then measure start else measure (j - 1)) := by
      intro j h1 h2
      have hjs : j ≠ start := by omega
      have := hall j (by omega) (by omega)
      rw [if_neg hjs] at this
      by_cases h3 : j = start + 1
      · subst h3
        rw [if_pos rfl]
        simpa using this
      · rw [if_neg h3]
        exact this
    rw [ih (start + 1) (count + 1) (measure start) hall2]
    omega

/-- C4: for `max_scrolls ≥ 1`, the loop stops within the first iteration
whose measurement equals the previous one, `scroll_count` is the number
of iterations actually executed (`j + 1` when convergence happens at
iteration `j`, counted from 0), it never exceeds `max_scrolls`, and
without convergence it runs exactly `max_scrolls` iterations. -/
theorem c4_scroll_convergence (measure : Nat → Nat) (max_scrolls : Nat)
    (hmax : 1 ≤ max_scrolls) :
    (handle_infinite_scroll measure max_scrolls).1 ≤ max_scrolls
    ∧ (∀ j, j < max_scrolls → measure j = prevMeasure measure j →
        (∀ k, k < j → measure k ≠ prevMeasure measure k) →
        (handle_infinite_scroll measure max_scrolls).1 = j + 1)
    ∧ ((∀ j, j < max_scrolls → measure j ≠ prevMeasure measure j) →
        (handle_infinite_scroll measure max_scrolls).1 = max_scrolls) := by
  refine ⟨?_, ?_, ?_⟩
  · have := scrollLoop_count_le measure (List.range max_scrolls) 0 0
    simpa [handle_infinite_scroll] using this
  · intro j hjmax hconv hbefore
    have hj : measure j = (if j = 0 then 0 else measure (j - 1)) := by
      rw [← prevMeasure_eq]
      exact hconv
    have hk : ∀ k, 0 ≤ k → k < j →
        measure k ≠ (if k = 0 then 0 else measure (k - 1)) := by
      intro k _ hkj
      rw [← prevMeasure_eq]
      exact hbefore k hkj
    have := scrollLoop_stop measure max_scrolls 0 0 0 j (Nat.zero_le j)
      (by omega) hj hk
    rw [handle_infinite_scroll, List.range_eq_range', this]
    simp
  · intro hnone
    have hall : ∀ j, 0 ≤ j → j < 0 + max_scrolls →
        measure j ≠ (if j = 0 then 0 else measure (j - 1)) := by
      intro j _ hj
      rw [← prevMeasure_eq]
      exact hnone j (by omega)
    rw [handle_infinite_scroll, List.range_eq_range',
      scrollLoop_exhaust measure max_scrolls 0 0 0 hall]
    omega

/-- A page whose measurements converge at the second cycle: 7 then 7. -/
def measureSeven : Nat → Nat := fun _ => 7

/-- A page whose measurement grows on every cycle. -/
def measureGrowing : Nat → Nat := fun i => i + 1

/-- C4 witness: with `max_scrolls = 3` and constant measurement 7, the
loop converges at the second iteration (`scroll_count = 2 ≤ 3`); with a
measurement that grows every cycle it exhausts all 3 iterations. -/
theorem c4_scroll_convergence_witness :
    (handle_infinite_scroll measureSeven 3).1 ≤ 3
    ∧ (handle_infinite_scroll measureSeven 3).1 = 2
    ∧ (handle_infinite_scroll measureGrowing 3).1 = 3 := by
  refine ⟨(c4_scroll_convergence measureSeven 3 (by omega)).1, ?_, ?_⟩
  · refine (c4_scroll_convergence measureSeven 3 (by omega)).2.1 1 (by omega) rfl ?_
    intro k hk
    have hk0 : k = 0 := by omega
    subst hk0
    decide
  · refine (c4_scroll_convergence measureGrowing 3 (by omega)).2.2 ?_
    intro j hj
    interval_cases j <;> decide

/-- Measurements of a page that is empty on the first check but would
have content on the second: 0, then 5. -/
def measureLateContent : Nat → Nat := fun i => if i = 0 then 0 else 5

/-- C1 (counterexample): the claim says a first measurement of 0 is
treated as "no content yet" and the controller converges only if the
measurement stays 0 across two consecutive measurement cycles.  On a page
measuring 0 then 5, the code stops as converged within the *first* cycle
(`scroll_count = 1`, well below `max_scrolls = 10`): the first 0 already
equals the seeded `lastMeasure`, so no second cycle ever runs. -/
theorem c1_counterexample :
    handle_infinite_scroll measureLateContent 10 = (1, 0)
    ∧ measureLateContent 0 = 0
    ∧ measureLateContent 1 = 5 := by
  refine ⟨?_, rfl, rfl⟩
  decide

/-- C1 (amended): because `lastMeasure` is seeded at 0, a first
measurement of 0 is itself already convergence: for every
`max_scrolls ≥ 1`, the controller stops within the first cycle with
`scroll_count = 1` and final measurement state 0, without a second
measurement cycle. -/
theorem c1_zero_first_measurement_converges_immediately
    (measure : Nat → Nat) (max_scrolls : Nat)
    (hmax : 1 ≤ max_scrolls) (h0 : measure 0 = 0) :
    handle_infinite_scroll measure max_scrolls = (1, 0) := by
  have := scrollLoop_stop measure max_scrolls 0 0 0 0 (le_refl 0) (by omega)
    (by simpa using h0) (by intro k h1 h2; omega)
  rw [handle_infinite_scroll, List.range_eq_range', this]
  simp

/-- C1 witness: a page whose first measurement is 0 (and would be 5 on a
second cycle) stops immediately with `scroll_count = 1`. -/
theorem c1_zero_first_measurement_witness :
    handle_infinite_scroll measureLateContent 7 = (1, 0) :=
  c1_zero_first_measurement_converges_immediately measureLateContent 7
    (by omega) rfl

/-! ### `BrowserManager` (`browser.py`)

Only the reference-clearing behaviour of `close_browser` and the
`running` field of `get_status` are in scope; the browser and tab are
opaque handles.  `quit_raises` embeds whether `self._browser.quit()`
raises, `probe_raises` whether the status probe of a live browser
raises. -/

/-- The manager's mutable fields: `_browser` and `_current_tab`. -/
structure SessionState where
  browser : Option Nat
  current_tab : Option Nat
deriving DecidableEq

/-- Result of `close_browser`: only `success` matters here. -/
structure CloseResult where
  success : Bool
deriving DecidableEq

/-- Embedding of `close_browser` (lines 180-214): no-op success when no
browser is running; otherwise quit, clear both references and report
success — and on an exception from `quit()`, still clear both references
(lines 207-209) and report failure. -/
def close_browser (quit_raises : Bool) (s : SessionState) :
    SessionState × CloseResult :=
  match s.browser with
  | none => (s, ⟨true⟩)
  | some _ =>
    if quit_raises then (⟨none, none⟩, ⟨false⟩)
    else (⟨none, none⟩, ⟨true⟩)

/-- The `running` field `get_status` reports (lines 141-178): `false`
when no browser exists; with a browser, `true` unless the status probe
itself raises (lines 173-178 degrade to `running:false` with an error). -/
def get_status_running (probe_raises : Bool) (s : SessionState) : Bool :=
  match s.browser with
  | none => false
  | some _ => if probe_raises then false else true

/-- States the manager can actually be in: the tab reference is only
ever set while a browser exists (`init_browser` sets both, the tab
setters run behind `ensure_browser`). -/
def SessionWf (s : SessionState) : Prop :=
  s.browser = none → s.current_tab = none

/-- C3: after `close_browser` returns — whether the underlying `quit()`
succeeded or raised — both the browser handle and the current-tab
reference are `none`, and a subsequent `get_status` reports
`running:false`; the references are never left non-null after a failed
close. -/
theorem c3_close_clears_references (s : SessionState)
    (quit_raises probe_raises : Bool) (hwf : SessionWf s) :
    (close_browser quit_raises s).1.browser = none
    ∧ (close_browser quit_raises s).1.current_tab = none
    ∧ get_status_running probe_raises (close_browser quit_raises s).1 = false := by
  match hs : s.browser with
  | none =>
    have htab := hwf hs
    simp [close_browser, hs, get_status_running, htab]
  | some b =>
    cases quit_raises <;> simp [close_browser, hs, get_status_running]

/-- C3 witness: closing a live session whose `quit()` raises still clears
both references and leaves `get_status` reporting `running:false`. -/
theorem c3_close_clears_references_witness :
    (close_browser true ⟨some 0, some 1⟩).1.browser = none
    ∧ (close_browser true ⟨some 0, some 1⟩).1.current_tab = none
    ∧ get_status_running false (close_browser true ⟨some 0, some 1⟩).1 = false :=
  c3_close_clears_references ⟨some 0, some 1⟩ true false (by intro h; cases h)
